import Mathlib

/-!
Verification of the concurrent, chunked, fan-out data-aggregation layer of a
ceremony-dashboard client against its specification.

The layer reads a remote document store (Firestore): it fetches flat
collections of documents, normalizes document snapshots into
`{id, ref, data}` records, sorts a ceremony's circuits by their
`sequencePosition` field, partitions participant identifier lists into
batches of at most 10 for the store's membership-filter ceiling, fans the
batches out through a collect-all executor, and flattens the per-batch
avatar URLs into a single list.

The store is modelled as a mapping from collection paths to document
snapshot lists, together with a fallible membership-query primitive
(`where(field, 'in', values)` + `getDocs`).  Asynchronous calls are
embedded as value-level `Except`: a rejected promise is an `Except.error`.
JavaScript `undefined` for an absent document field is modelled as `none`.
-/

/-- The document fields this layer reads, each possibly absent
(`none` models a field missing from the stored document). -/
structure DocumentData where
  sequencePosition : Option Int
  avatarUrl : Option String
  deriving Repr, DecidableEq

/-- A query document snapshot: identifier, reference (modelled by its path
string), the `exists()` flag, and the `data()` payload. -/
structure QueryDocumentSnapshot where
  id : String
  ref : String
  exists_ : Bool
  data : DocumentData
  deriving Repr, DecidableEq

/-- The `{id, ref, data}` record produced by the document mapper. -/
structure FirebaseDocumentInfo where
  id : String
  ref : String
  data : DocumentData
  deriving Repr, DecidableEq

/-- The `{uid, data}` record produced by the contribution reader. -/
structure ContributionInfo where
  uid : String
  data : DocumentData
  deriving Repr, DecidableEq

/-- The Firestore instance: `collections` maps a collection path to the
documents stored there (a full-collection `getDocs`), and `queryIn`
models `getDocs (query (collection db name) (where field 'in' values))`,
which may fail with a store error. -/
structure Firestore where
  collections : String → List QueryDocumentSnapshot
  queryIn : String → String → List String → Except String (List QueryDocumentSnapshot)

/-- Fetch for all documents in a collection. -/
def getAllCollectionDocs (db : Firestore) (collection : String) :
    List QueryDocumentSnapshot :=
  db.collections collection

/-- Helper for obtaining uid and data for query document snapshots. -/
def fromQueryToFirebaseDocumentInfo (queryDocSnap : List QueryDocumentSnapshot) :
    List FirebaseDocumentInfo :=
  queryDocSnap.map (fun document =>
    { id := document.id, ref := document.ref, data := document.data })

/-- Get circuits collection path for database reference. -/
def getCircuitsCollectionPath (ceremonyId : String) : String :=
  s!"ceremonies/{ceremonyId}/circuits"

/-- The source circuit comparator `(a, b) => a.data.sequencePosition -
b.data.sequencePosition` read as a boolean "not after" test: when both
positions are present the difference decides; when either is `undefined`
the subtraction is `NaN`, which the sort treats as "equal" (neither
element strictly after the other), hence `true` here. -/
def sequencePositionLe (a b : FirebaseDocumentInfo) : Bool :=
  match a.data.sequencePosition, b.data.sequencePosition with
  | some x, some y => x ≤ y
  | _, _ => true

/-- Strict version of the circuit comparator: `a` strictly before `b`
requires both positions present. -/
def sequencePositionLt (a b : FirebaseDocumentInfo) : Bool :=
  match a.data.sequencePosition, b.data.sequencePosition with
  | some x, some y => x < y
  | _, _ => false

/-- Query for ceremony circuits: read `ceremonies/{ceremonyId}/circuits`,
map to `{id, ref, data}`, and sort by `data.sequencePosition`.  The
JavaScript stable in-place sort is embedded as a stable insertion sort on
the comparator's "not after" relation. -/
def getCeremonyCircuits (db : Firestore) (ceremonyId : String) :
    List FirebaseDocumentInfo :=
  (fromQueryToFirebaseDocumentInfo
      (getAllCollectionDocs db (getCircuitsCollectionPath ceremonyId))).insertionSort
    (fun a b => sequencePositionLe a b = true)

/-- The chunking loop of `getParticipantsAvatar`:
`while (participantIds.length) chunks.push(participantIds.splice(0, 10))`,
collecting groups of 10 or fewer identifiers. -/
def chunkIds (participantIds : List String) : List (List String) :=
  if participantIds.length = 0 then []
  else participantIds.take 10 :: chunkIds (participantIds.drop 10)
termination_by participantIds.length
decreasing_by
  simp only [List.length_drop]
  omega

/-- The participant identifiers of a ceremony: read
`ceremonies/{ceremonyId}/participants`, map to `{id, ref, data}`, and
keep each record's `id`. -/
def participantIds (db : Firestore) (ceremonyId : String) : List String :=
  (fromQueryToFirebaseDocumentInfo
      (getAllCollectionDocs db s!"ceremonies/{ceremonyId}/participants")).map
    (fun participant => participant.id)

/-- The `chunks` local of `getParticipantsAvatar`: the participant
identifiers grouped into batches of at most 10. -/
def participantIdChunks (db : Firestore) (ceremonyId : String) : List (List String) :=
  chunkIds (participantIds db ceremonyId)

/-- Fetch avatars for a given chunk: one membership query on the
`avatars` collection by document name, keeping documents that exist and
reading their `avatarUrl` field (which may be absent, hence `Option`). -/
def fetchAvatarsForChunk (db : Firestore) (chunk : List String) :
    Except String (List (Option String)) :=
  (db.queryIn "avatars" "__name__" chunk).map
    (fun avatarDocs =>
      (avatarDocs.filter (fun doc => doc.exists_)).map (fun doc => doc.data.avatarUrl))

/-- Modelled from the spec: `processItems`, the chunked fan-out executor,
is imported from a utilities module whose source is not part of this
development; spec sections 3, 4.4 and 7 describe it.  It runs the
supplied operation over every item; in collect-all mode (`failFast =
false`) a failing item's error is recorded in the `errors` sequence
without affecting the other items and each succeeding item's output is
collected into `results` (one entry per succeeding item — the caller
flattens, as the source's `results.flat()` shows); in fail-fast mode the
first failure aborts the whole fan-out with that error. -/
def processItems {α β ε : Type} (items : List α) (processItem : α → Except ε β)
    (failFast : Bool) : Except ε (List β × List ε) :=
  match items with
  | [] => Except.ok ([], [])
  | item :: rest =>
    match processItem item, failFast with
    | Except.error e, true => Except.error e
    | Except.error e, false =>
      (processItems rest processItem failFast).map (fun p => (p.1, e :: p.2))
    | Except.ok r, _ =>
      (processItems rest processItem failFast).map (fun p => (r :: p.1, p.2))

/-- Fetch all avatars for participants of a ceremony: read the
participants, chunk their identifiers, fan the chunks out through
`processItems` in collect-all mode, and flatten the per-chunk URL lists
(`results.flat()`); the `errors` component is discarded. -/
def getParticipantsAvatar (db : Firestore) (ceremonyId : String) :
    Except String (List (Option String)) :=
  (processItems (participantIdChunks db ceremonyId) (fetchAvatarsForChunk db) false).map
    (fun fanout => fanout.1.flatten)

/-- Function to get contributions for each circuit: read
`ceremonies/{ceremonyId}/circuits/{circuitId}/contributions` and map each
document to `{uid, data}`. -/
def getContributions (db : Firestore) (ceremonyId circuitId : String) :
    List ContributionInfo :=
  (getAllCollectionDocs db
      s!"ceremonies/{ceremonyId}/circuits/{circuitId}/contributions").map
    (fun document => { uid := document.id, data := document.data })

/-- A circuit document snapshot at a given sequence position. -/
def circuitSnap (i : String) (pos : Int) : QueryDocumentSnapshot :=
  { id := i, ref := i, exists_ := true,
    data := { sequencePosition := some pos, avatarUrl := none } }

/-- A store whose `ceremonies/c/circuits` collection holds three circuits
stored in sequence-position order 2, 0, 1. -/
def circuitsDb201 : Firestore :=
  { collections := fun path =>
      if path = "ceremonies/c/circuits" then
        [circuitSnap "a" 2, circuitSnap "b" 0, circuitSnap "d" 1]
      else []
    queryIn := fun _ _ _ => Except.ok [] }

/-- A participant document snapshot with a numbered identifier. -/
def participantSnap (n : Nat) : QueryDocumentSnapshot :=
  { id := toString n, ref := toString n, exists_ := true,
    data := { sequencePosition := none, avatarUrl := none } }

/-- A store whose `ceremonies/c/participants` collection holds 25
participant documents and whose membership queries return no documents. -/
def participantsDb25 : Firestore :=
  { collections := fun path =>
      if path = "ceremonies/c/participants" then (List.range 25).map participantSnap
      else []
    queryIn := fun _ _ _ => Except.ok [] }

/-- A store with no documents at all and a failing membership query. -/
def emptyDb : Firestore :=
  { collections := fun _ => []
    queryIn := fun _ _ _ => Except.error "unavailable" }

/-- An avatar document snapshot that exists but lacks the `avatarUrl`
field. -/
def missingUrlSnap : QueryDocumentSnapshot :=
  { id := "p0", ref := "p0", exists_ := true,
    data := { sequencePosition := none, avatarUrl := none } }

/-- A store whose `avatars` membership query returns a single existing
document that lacks the `avatarUrl` field. -/
def avatarsDbMissingUrl : Firestore :=
  { collections := fun _ => []
    queryIn := fun name _ _ =>
      if name = "avatars" then Except.ok [missingUrlSnap] else Except.ok [] }

/-! ### Chunking lemmas -/

theorem chunkIds_nil : chunkIds [] = [] := by
  rw [chunkIds]
  rfl

theorem chunkIds_join : ∀ l : List String, (chunkIds l).flatten = l := by
  intro l
  induction l using chunkIds.induct with
  | case1 l h =>
    rw [chunkIds, if_pos h, List.flatten_nil]
    exact (List.length_eq_zero.mp h).symm
  | case2 l h ih =>
    rw [chunkIds, if_neg h, List.flatten_cons, ih, List.take_append_drop]

theorem chunkIds_length :
    ∀ l : List String, (chunkIds l).length = (l.length + 9) / 10 := by
  intro l
  induction l using chunkIds.induct with
  | case1 l h =>
    rw [chunkIds, if_pos h]
    simp only [List.length_nil]
    omega
  | case2 l h ih =>
    rw [chunkIds, if_neg h]
    simp only [List.length_cons, ih, List.length_drop]
    omega

theorem chunkIds_sizes :
    ∀ l : List String, ∀ c ∈ chunkIds l, c.length ≤ 10 := by
  intro l
  induction l using chunkIds.induct with
  | case1 l h =>
    rw [chunkIds, if_pos h]
    intro c hc
    exact absurd hc (List.not_mem_nil c)
  | case2 l h ih =>
    rw [chunkIds, if_neg h]
    intro c hc
    rcases List.mem_cons.mp hc with rfl | hc
    · exact List.length_take_le 10 l
    · exact ih c hc

/-- C1: the batching step of the avatar aggregator partitions any
identifier list of length `N` into `ceil(N/10)` contiguous batches, each
of size at most 10, whose concatenation is the original list (order
preserved, nothing duplicated or dropped); the empty list yields zero
batches. -/
theorem chunkIds_partitions (l : List String) :
    (chunkIds l).flatten = l ∧
    (chunkIds l).length = (l.length + 9) / 10 ∧
    (∀ c ∈ chunkIds l, c.length ≤ 10) ∧
    chunkIds [] = [] :=
  ⟨chunkIds_join l, chunkIds_length l, chunkIds_sizes l, chunkIds_nil⟩

/-- C7: the document mapper is a total function returning one `{id, ref,
data}` record per input snapshot, in order: the output has the length of
the input and its `i`-th element is built from the `i`-th snapshot's
fields, with no validation of the payload. -/
theorem fromQueryToFirebaseDocumentInfo_pointwise
    (queryDocSnap : List QueryDocumentSnapshot) :
    (fromQueryToFirebaseDocumentInfo queryDocSnap).length = queryDocSnap.length ∧
    ∀ i : Nat, (fromQueryToFirebaseDocumentInfo queryDocSnap)[i]? =
      (queryDocSnap[i]?).map (fun document =>
        { id := document.id, ref := document.ref, data := document.data }) := by
  refine ⟨by simp [fromQueryToFirebaseDocumentInfo], fun i => ?_⟩
  simp [fromQueryToFirebaseDocumentInfo]

/-! ### Sorting lemmas -/

/-- Sort key with an absent position collapsed to 0; used only to carry
sortedness lemmas over to lists whose positions are all present, where it
agrees with the source comparator. -/
def seqKey (c : FirebaseDocumentInfo) : Int :=
  c.data.sequencePosition.getD 0

/-- The key order induced by `seqKey`. -/
def seqKeyLe (a b : FirebaseDocumentInfo) : Prop :=
  seqKey a ≤ seqKey b

instance : DecidableRel seqKeyLe := fun a b =>
  decidable_of_iff (seqKey a ≤ seqKey b) Iff.rfl

instance : IsTotal FirebaseDocumentInfo seqKeyLe :=
  ⟨fun a b => le_total (seqKey a) (seqKey b)⟩

instance : IsTrans FirebaseDocumentInfo seqKeyLe :=
  ⟨fun _ _ _ hab hbc => le_trans hab hbc⟩

theorem orderedInsert_congr {α : Type} (r s : α → α → Prop) [DecidableRel r]
    [DecidableRel s] (a : α) (l : List α) (h : ∀ b ∈ l, r a b ↔ s a b) :
    l.orderedInsert r a = l.orderedInsert s a := by
  induction l with
  | nil => rfl
  | cons b t ih =>
    simp only [List.orderedInsert]
    by_cases hb : r a b
    · rw [if_pos hb, if_pos ((h b (List.mem_cons_self b t)).mp hb)]
    · rw [if_neg hb, if_neg (fun hs => hb ((h b (List.mem_cons_self b t)).mpr hs)),
        ih (fun c hc => h c (List.mem_cons_of_mem b hc))]

theorem insertionSort_congr {α : Type} (r s : α → α → Prop) [DecidableRel r]
    [DecidableRel s] (l : List α) (h : ∀ a ∈ l, ∀ b ∈ l, r a b ↔ s a b) :
    l.insertionSort r = l.insertionSort s := by
  induction l with
  | nil => rfl
  | cons a t ih =>
    simp only [List.insertionSort]
    rw [ih (fun x hx y hy =>
      h x (List.mem_cons_of_mem a hx) y (List.mem_cons_of_mem a hy))]
    exact orderedInsert_congr r s a _ (fun b hb =>
      h a (List.mem_cons_self a t) b
        (List.mem_cons_of_mem a ((List.mem_insertionSort s).mp hb)))

/-- C2: for every ceremony identifier, `getCeremonyCircuits` returns
exactly the documents read at `ceremonies/{id}/circuits` mapped to
`{id, ref, data}` (a permutation of those records), and whenever the
sequence positions are all present and pairwise distinct the returned
list is strictly ascending by `data.sequencePosition`. -/
theorem getCeremonyCircuits_sorted (db : Firestore) (ceremonyId : String)
    (hsome : ∀ c ∈ fromQueryToFirebaseDocumentInfo
      (getAllCollectionDocs db (getCircuitsCollectionPath ceremonyId)),
      c.data.sequencePosition.isSome = true)
    (huniq : (fromQueryToFirebaseDocumentInfo
      (getAllCollectionDocs db (getCircuitsCollectionPath ceremonyId))).Pairwise
      (fun a b => a.data.sequencePosition ≠ b.data.sequencePosition)) :
    List.Perm (getCeremonyCircuits db ceremonyId)
      (fromQueryToFirebaseDocumentInfo
        (getAllCollectionDocs db (getCircuitsCollectionPath ceremonyId))) ∧
    (getCeremonyCircuits db ceremonyId).Pairwise
      (fun a b => sequencePositionLt a b = true) := by
  set mapped := fromQueryToFirebaseDocumentInfo
    (getAllCollectionDocs db (getCircuitsCollectionPath ceremonyId)) with hm
  have hperm : List.Perm (getCeremonyCircuits db ceremonyId) mapped :=
    List.perm_insertionSort _ mapped
  refine ⟨hperm, ?_⟩
  have hcong : getCeremonyCircuits db ceremonyId = mapped.insertionSort seqKeyLe := by
    unfold getCeremonyCircuits
    rw [← hm]
    refine insertionSort_congr _ _ mapped (fun a ha b hb => ?_)
    obtain ⟨x, hx⟩ := Option.isSome_iff_exists.mp (hsome a ha)
    obtain ⟨y, hy⟩ := Option.isSome_iff_exists.mp (hsome b hb)
    simp [sequencePositionLe, seqKeyLe, seqKey, hx, hy]
  have hsorted : (mapped.insertionSort seqKeyLe).Pairwise seqKeyLe :=
    List.sorted_insertionSort seqKeyLe mapped
  have hne : (mapped.insertionSort seqKeyLe).Pairwise
      (fun a b => a.data.sequencePosition ≠ b.data.sequencePosition) :=
    ((List.perm_insertionSort seqKeyLe mapped).pairwise_iff
      (fun hab => Ne.symm hab)).mpr huniq
  have hmem : ∀ c ∈ mapped.insertionSort seqKeyLe,
      c.data.sequencePosition.isSome = true := fun c hc =>
    hsome c ((List.mem_insertionSort seqKeyLe).mp hc)
  rw [hcong]
  refine (hsorted.and hne).imp_of_mem (fun ha hb hab => ?_)
  obtain ⟨x, hx⟩ := Option.isSome_iff_exists.mp (hmem _ ha)
  obtain ⟨y, hy⟩ := Option.isSome_iff_exists.mp (hmem _ hb)
  have h1 : x ≤ y := by
    have := hab.1
    simpa [seqKeyLe, seqKey, hx, hy] using this
  have h2 : x ≠ y := by
    have := hab.2
    simp [hx, hy] at this
    exact this
  simp [sequencePositionLt, hx, hy]
  omega

/-- C9: sorting never drops, duplicates, or alters circuit records: for
every store contents — ties and absent sequence positions included — the
output of `getCeremonyCircuits` is a permutation of the `{id, ref, data}`
records mapped from the documents read. -/
theorem getCeremonyCircuits_perm (db : Firestore) (ceremonyId : String) :
    List.Perm (getCeremonyCircuits db ceremonyId)
      (fromQueryToFirebaseDocumentInfo
        (getAllCollectionDocs db (getCircuitsCollectionPath ceremonyId))) :=
  List.perm_insertionSort _ _

/-! ### Fan-out executor lemmas -/

theorem processItems_collectAll {α β ε : Type} (items : List α)
    (processItem : α → Except ε β) :
    processItems items processItem false =
      Except.ok (items.filterMap (fun i => (processItem i).toOption),
        items.filterMap (fun i =>
          match processItem i with
          | Except.ok _ => none
          | Except.error e => some e)) := by
  induction items with
  | nil => rfl
  | cons i rest ih =>
    cases h : processItem i <;>
      simp [processItems, h, ih, Except.map, Except.toOption]

theorem processItems_err_count {α β ε : Type} (items : List α)
    (processItem : α → Except ε β) :
    (items.filterMap (fun i =>
      match processItem i with
      | Except.ok _ => none
      | Except.error e => some e)).length =
    (items.filter (fun i => !(processItem i).isOk)).length := by
  induction items with
  | nil => rfl
  | cons i rest ih =>
    cases h : processItem i <;> simp [h, ih, Except.isOk, Except.toBool]

theorem processItems_total_count {α β ε : Type} (items : List α)
    (processItem : α → Except ε β) :
    (items.filterMap (fun i => (processItem i).toOption)).length +
      (items.filterMap (fun i =>
        match processItem i with
        | Except.ok _ => none
        | Except.error e => some e)).length = items.length := by
  induction items with
  | nil => rfl
  | cons i rest ih =>
    cases h : processItem i <;>
      simp [h, Except.toOption] at ih ⊢ <;> omega

/-- C3: the fan-out executor in collect-all mode, for every batch list and
every operation — hence every subset of failing batches, empty and full
included — returns `.ok` of a results/errors pair where the results are
exactly the succeeding batches' outputs in order, the flattened results'
length is the sum of the successful output sizes, the errors' length is
the number of failing batches, and each batch lands in exactly one of the
two: result count plus error count equals the batch count. -/
theorem processItems_collectAll_fanout {α β ε : Type} (items : List α)
    (processItem : α → Except ε (List β)) :
    ∃ results errors,
      processItems items processItem false = Except.ok (results, errors) ∧
      results = items.filterMap (fun i => (processItem i).toOption) ∧
      results.flatten.length =
        ((items.filterMap (fun i => (processItem i).toOption)).map List.length).sum ∧
      errors.length = (items.filter (fun i => !(processItem i).isOk)).length ∧
      results.length + errors.length = items.length := by
  refine ⟨_, _, processItems_collectAll items processItem, rfl, ?_, ?_, ?_⟩
  · rw [List.length_flatten]
  · exact processItems_err_count items processItem
  · exact processItems_total_count items processItem

/-- C4: `getParticipantsAvatar` never fails because membership-query
batches fail: for every store and ceremony the collect-all fan-out
returns `.ok`, the failing chunks' errors are collected (one per failing
chunk) and then discarded, and the flattened outputs of all succeeding
chunks are what the caller receives. -/
theorem getParticipantsAvatar_partial_failure (db : Firestore) (ceremonyId : String) :
    ∃ results errors,
      processItems (participantIdChunks db ceremonyId) (fetchAvatarsForChunk db) false =
        Except.ok (results, errors) ∧
      getParticipantsAvatar db ceremonyId = Except.ok results.flatten ∧
      results = (participantIdChunks db ceremonyId).filterMap
        (fun chunk => (fetchAvatarsForChunk db chunk).toOption) ∧
      errors.length = ((participantIdChunks db ceremonyId).filter
        (fun chunk => !(fetchAvatarsForChunk db chunk).isOk)).length := by
  refine ⟨_, _, processItems_collectAll _ _, ?_, rfl,
    processItems_err_count _ _⟩
  unfold getParticipantsAvatar
  rw [processItems_collectAll]
  rfl

/-! ### Avatar aggregator and contribution reader -/

theorem filterMap_eq_map_of_forall {α β : Type} (l : List α) (f : α → Option β)
    (g : α → β) (h : ∀ x ∈ l, f x = some (g x)) : l.filterMap f = l.map g := by
  induction l with
  | nil => rfl
  | cons a t ih =>
    simp [h a (List.mem_cons_self a t),
      ih (fun x hx => h x (List.mem_cons_of_mem a hx))]

/-- C5: with exactly 25 participants the aggregator issues exactly 3
membership queries — the chunks, of sizes 10, 10 and 5, covering the
participant identifiers exactly — and when the store answers every query
the caller receives the flattened per-chunk URL lists of the avatar
documents that exist, with no error: a participant with no matching
avatar document simply contributes no entry. -/
theorem getParticipantsAvatar_25 (db : Firestore) (ceremonyId : String)
    (h25 : (participantIds db ceremonyId).length = 25) :
    (participantIdChunks db ceremonyId).length = 3 ∧
    (participantIdChunks db ceremonyId).map List.length = [10, 10, 5] ∧
    (participantIdChunks db ceremonyId).flatten = participantIds db ceremonyId ∧
    ∀ urls : List String → List (Option String),
      (∀ chunk ∈ participantIdChunks db ceremonyId,
        fetchAvatarsForChunk db chunk = Except.ok (urls chunk)) →
      getParticipantsAvatar db ceremonyId =
        Except.ok ((participantIdChunks db ceremonyId).map urls).flatten := by
  set l := participantIds db ceremonyId with hl
  have e1 : chunkIds l = l.take 10 :: chunkIds (l.drop 10) := by
    rw [chunkIds, if_neg (by omega)]
  have e2 : chunkIds (l.drop 10) =
      (l.drop 10).take 10 :: chunkIds ((l.drop 10).drop 10) := by
    rw [chunkIds, if_neg (by simp [List.length_drop]; omega)]
  have e3 : chunkIds ((l.drop 10).drop 10) =
      ((l.drop 10).drop 10).take 10 :: chunkIds (((l.drop 10).drop 10).drop 10) := by
    rw [chunkIds, if_neg (by simp [List.length_drop]; omega)]
  have e4 : chunkIds (((l.drop 10).drop 10).drop 10) = [] := by
    rw [chunkIds, if_pos (by simp [List.length_drop]; omega)]
  have echunks : participantIdChunks db ceremonyId =
      [l.take 10, (l.drop 10).take 10, ((l.drop 10).drop 10).take 10] := by
    rw [participantIdChunks, ← hl, e1, e2, e3, e4]
  refine ⟨?_, ?_, ?_, ?_⟩
  · rw [participantIdChunks, ← hl, chunkIds_length, h25]
  · rw [echunks]
    simp [List.length_take, List.length_drop, h25]
  · rw [participantIdChunks, ← hl, chunkIds_join]
  · intro urls hurls
    unfold getParticipantsAvatar
    rw [processItems_collectAll]
    rw [filterMap_eq_map_of_forall _ _ urls
      (fun chunk hchunk => by rw [hurls chunk hchunk]; rfl)]
    rfl

/-- C6: a ceremony whose participants sub-collection is empty yields an
empty chunk list and an empty `.ok` URL list; the result is the same for
every membership-query primitive, so no membership query is consulted. -/
theorem getParticipantsAvatar_noParticipants (db : Firestore) (ceremonyId : String)
    (h : getAllCollectionDocs db s!"ceremonies/{ceremonyId}/participants" = []) :
    participantIdChunks db ceremonyId = [] ∧
    getParticipantsAvatar db ceremonyId = Except.ok [] ∧
    ∀ queryIn, getParticipantsAvatar
      { collections := db.collections, queryIn := queryIn } ceremonyId =
        Except.ok [] := by
  have h' : db.collections s!"ceremonies/{ceremonyId}/participants" = [] := h
  have hchunks : participantIdChunks db ceremonyId = [] := by
    simp [participantIdChunks, participantIds, getAllCollectionDocs,
      fromQueryToFirebaseDocumentInfo, h', chunkIds]
  refine ⟨hchunks, ?_, ?_⟩
  · simp [getParticipantsAvatar, hchunks, processItems, Except.map]
  · intro q
    have hchunks2 : participantIdChunks
        { collections := db.collections, queryIn := q } ceremonyId = [] := by
      simp [participantIdChunks, participantIds, getAllCollectionDocs,
        fromQueryToFirebaseDocumentInfo, h', chunkIds]
    simp [getParticipantsAvatar, hchunks2, processItems, Except.map]

/-- C8: the contribution reader returns, in store iteration order, one
`{uid, data}` record per document of
`ceremonies/{ceremonyId}/circuits/{circuitId}/contributions`: the output
has the length of the collection read and its `i`-th record is built from
the `i`-th document, with no reordering applied. -/
theorem getContributions_pointwise (db : Firestore) (ceremonyId circuitId : String) :
    (getContributions db ceremonyId circuitId).length =
      (getAllCollectionDocs db
        s!"ceremonies/{ceremonyId}/circuits/{circuitId}/contributions").length ∧
    ∀ i : Nat, (getContributions db ceremonyId circuitId)[i]? =
      ((getAllCollectionDocs db
        s!"ceremonies/{ceremonyId}/circuits/{circuitId}/contributions")[i]?).map
        (fun document => { uid := document.id, data := document.data }) := by
  refine ⟨by simp [getContributions], fun i => ?_⟩
  simp [getContributions]

/-- C10: when the membership query answers, `fetchAvatarsForChunk`
returns one entry per existing document of the answer — that document's
`avatarUrl` field read with no presence check — so an existing document
lacking the field contributes an absent (`none`) entry to the URL list
instead of being omitted or raising an error. -/
theorem fetchAvatarsForChunk_entries (db : Firestore) (chunk : List String)
    (docs : List QueryDocumentSnapshot)
    (h : db.queryIn "avatars" "__name__" chunk = Except.ok docs) :
    ∃ urls, fetchAvatarsForChunk db chunk = Except.ok urls ∧
      urls = (docs.filter (fun doc => doc.exists_)).map
        (fun doc => doc.data.avatarUrl) ∧
      urls.length = (docs.filter (fun doc => doc.exists_)).length ∧
      ∀ doc ∈ docs, doc.exists_ = true → doc.data.avatarUrl = none →
        none ∈ urls := by
  refine ⟨_, by simp [fetchAvatarsForChunk, h, Except.map], rfl, by simp, ?_⟩
  intro doc hdoc hex hurl
  exact List.mem_map.mpr ⟨doc, List.mem_filter.mpr ⟨hdoc, hex⟩, hurl⟩

/-! ### Witnesses -/

/-- Witness for C2: three circuits stored at sequence positions 2, 0, 1
satisfy the presence and uniqueness hypotheses, and the fetcher returns
the permuted, strictly ascending list — concretely, the records at
positions 0, 1, 2 in that order. -/
theorem getCeremonyCircuits_sorted_witness :
    ((∀ c ∈ fromQueryToFirebaseDocumentInfo
      (getAllCollectionDocs circuitsDb201 (getCircuitsCollectionPath "c")),
      c.data.sequencePosition.isSome = true) ∧
    (fromQueryToFirebaseDocumentInfo
      (getAllCollectionDocs circuitsDb201 (getCircuitsCollectionPath "c"))).Pairwise
      (fun a b => a.data.sequencePosition ≠ b.data.sequencePosition)) ∧
    (List.Perm (getCeremonyCircuits circuitsDb201 "c")
      (fromQueryToFirebaseDocumentInfo
        (getAllCollectionDocs circuitsDb201 (getCircuitsCollectionPath "c"))) ∧
    (getCeremonyCircuits circuitsDb201 "c").Pairwise
      (fun a b => sequencePositionLt a b = true)) ∧
    getCeremonyCircuits circuitsDb201 "c" =
      fromQueryToFirebaseDocumentInfo
        [circuitSnap "b" 0, circuitSnap "d" 1, circuitSnap "a" 2] :=
  ⟨⟨by decide, by decide⟩,
    getCeremonyCircuits_sorted circuitsDb201 "c" (by decide) (by decide),
    by decide⟩

/-- Witness for C5: a store holding 25 participants, where the chunk
sizes are 10, 10, 5 and the aggregation succeeds. -/
theorem getParticipantsAvatar_25_witness :
    (participantIds participantsDb25 "c").length = 25 ∧
    ((participantIdChunks participantsDb25 "c").length = 3 ∧
    (participantIdChunks participantsDb25 "c").map List.length = [10, 10, 5] ∧
    (participantIdChunks participantsDb25 "c").flatten =
      participantIds participantsDb25 "c" ∧
    ∀ urls : List String → List (Option String),
      (∀ chunk ∈ participantIdChunks participantsDb25 "c",
        fetchAvatarsForChunk participantsDb25 chunk = Except.ok (urls chunk)) →
      getParticipantsAvatar participantsDb25 "c" =
        Except.ok ((participantIdChunks participantsDb25 "c").map urls).flatten) :=
  ⟨by decide, getParticipantsAvatar_25 participantsDb25 "c" (by decide)⟩

/-- Witness for C6: a store with no documents at all (and a failing
membership query) yields no chunks and the empty `.ok` result. -/
theorem getParticipantsAvatar_noParticipants_witness :
    getAllCollectionDocs emptyDb "ceremonies/c/participants" = [] ∧
    (participantIdChunks emptyDb "c" = [] ∧
    getParticipantsAvatar emptyDb "c" = Except.ok [] ∧
    ∀ queryIn, getParticipantsAvatar
      { collections := emptyDb.collections, queryIn := queryIn } "c" =
        Except.ok []) :=
  ⟨rfl, getParticipantsAvatar_noParticipants emptyDb "c" rfl⟩

/-- Witness for C10: a membership query answering with one existing
document that lacks `avatarUrl` produces the one-entry URL list
containing `none`. -/
theorem fetchAvatarsForChunk_entries_witness :
    avatarsDbMissingUrl.queryIn "avatars" "__name__" ["p0"] =
      Except.ok [missingUrlSnap] ∧
    (∃ urls, fetchAvatarsForChunk avatarsDbMissingUrl ["p0"] = Except.ok urls ∧
      urls = (([missingUrlSnap].filter (fun doc => doc.exists_)).map
        (fun doc => doc.data.avatarUrl)) ∧
      urls.length = ([missingUrlSnap].filter (fun doc => doc.exists_)).length ∧
      ∀ doc ∈ [missingUrlSnap], doc.exists_ = true → doc.data.avatarUrl = none →
        none ∈ urls) :=
  ⟨rfl, fetchAvatarsForChunk_entries avatarsDbMissingUrl ["p0"] [missingUrlSnap] rfl⟩

/-- Witness for C1: the partition of a concrete 12-identifier list:
two batches, sizes 10 and 2, concatenating back to the input. -/
theorem chunkIds_partitions_witness :
    (chunkIds ["a", "b", "c", "d", "e", "f", "g", "h", "i", "j", "k", "l"]).flatten =
      ["a", "b", "c", "d", "e", "f", "g", "h", "i", "j", "k", "l"] ∧
    (chunkIds ["a", "b", "c", "d", "e", "f", "g", "h", "i", "j", "k", "l"]).length =
      (["a", "b", "c", "d", "e", "f", "g", "h", "i", "j", "k", "l"].length + 9) / 10 ∧
    (∀ c ∈ chunkIds ["a", "b", "c", "d", "e", "f", "g", "h", "i", "j", "k", "l"],
      c.length ≤ 10) ∧
    chunkIds [] = [] :=
  chunkIds_partitions ["a", "b", "c", "d", "e", "f", "g", "h", "i", "j", "k", "l"]
